import Mathlib

/-!
# kutil: parsing, scanning and module loading

A shallow embedding of `src/kutil.c` and `src/kutil.h`.

Conventions of the embedding.

* A C string is the list of its characters before the terminating NUL
  (`CStr`); a pointer that may be `NULL` is an `Option`.
* Character arrays are unbounded lists: a `%s` conversion that would overflow
  its destination array is undefined behaviour in C and is not represented.
  The shapes of well-formed lines below require the line to fit the line
  buffer and the symbol type its array of 16 characters.
* The C library functions the code calls (`sscanf`, `strstr`, `strncmp`,
  `strlen`, `strtok_r`) are modelled after their glibc behaviour.
* An open `FILE` is the list of buffers that successive `fgets` calls yield,
  one per line.
* `malloc` returns uninitialised memory: the initial contents of a record are
  a parameter of the scan.  A pointer handed to a caller says whether its block
  is still allocated; reading a freed block is undefined.
-/

namespace Kutil

/-- A C string: the characters before the terminating NUL. -/
abbrev CStr := List Char

/-! ## C library: character classes -/

/-- `isspace` in the C locale: space, `\t`, `\n`, `\v`, `\f`, `\r`. -/
def isspace (c : Char) : Bool :=
  c.toNat = 32 || (9 ≤ c.toNat && c.toNat ≤ 13)

/-- Value of `c` as a digit (0-9, a-z, A-Z as in `strtoul`), if it is one. -/
def digit_value (c : Char) : Option Nat :=
  if 48 ≤ c.toNat ∧ c.toNat ≤ 57 then some (c.toNat - 48)
  else if 97 ≤ c.toNat ∧ c.toNat ≤ 122 then some (c.toNat - 97 + 10)
  else if 65 ≤ c.toNat ∧ c.toNat ≤ 90 then some (c.toNat - 65 + 10)
  else none

/-- Whether `c` is a digit of the given base. -/
def is_digit (base : Nat) (c : Char) : Bool :=
  match digit_value c with
  | some v => decide (v < base)
  | none => false

/-- Value of a digit sequence in the given base, most significant digit first. -/
def digits_value (base : Nat) (ds : CStr) : Nat :=
  ds.foldl (fun acc c => acc * base + (digit_value c).getD 0) 0

/-! ## C library: `sscanf` -/

/-- The macro `EOF`. -/
def EOF : Int := -1

/-- The conversion specifiers the format strings of `kutil.c` use. -/
inductive Conversion where
  | s
  | lx
  | d
  deriving DecidableEq, Repr

/-- A directive of a format string: a run of white space, or a conversion. -/
inductive Directive where
  | ws
  | conv (c : Conversion)
  deriving DecidableEq, Repr

/-- A value stored through a pointer argument of `sscanf`. -/
inductive Arg where
  | str (v : CStr)
  | ulong (v : Nat)
  | int (v : Int)
  deriving DecidableEq, Repr

/-- Outcome of one conversion. -/
inductive Conv where
  | input_failure
  | matching_failure
  | assigned (v : Arg) (rest : CStr)
  deriving DecidableEq, Repr

/-- The digits of an integer conversion, as glibc collects them: digits of the
base, where a leading `0` may be followed by `x` or `X` when the base is 16
(the `0` is kept, the `x` is dropped).  Returns the digits read (`none` when
there is no digit at all) and the rest of the input.  A `0x` with no
hexadecimal digit after it is read as the number 0; C libraries differ on that
input, and no property below rests on it. -/
def scan_digits (base : Nat) : CStr → Option CStr × CStr
  | c :: cs =>
    if c = '0' then
      let s2 : CStr :=
        match cs with
        | x :: t => if base = 16 ∧ (x = 'x' ∨ x = 'X') then t else x :: t
        | [] => []
      (some (c :: s2.takeWhile (is_digit base)), s2.dropWhile (is_digit base))
    else
      let ds := (c :: cs).takeWhile (is_digit base)
      (if ds = [] then none else some ds, (c :: cs).dropWhile (is_digit base))
  | [] => (none, [])

/-- The subject sequence of an integer conversion: an optional sign, then the
digits.  Returns whether a sign `-` was read, the digits and the rest. -/
def scan_integer (base : Nat) : CStr → Bool × Option CStr × CStr
  | c :: cs =>
    if c = '-' then (true, scan_digits base cs)
    else if c = '+' then (false, scan_digits base cs)
    else (false, scan_digits base (c :: cs))
  | [] => (false, none, [])

/-- `strtoul` on a collected subject sequence: saturates at `ULONG_MAX`,
negates modulo `2^64` after a sign `-`. -/
def strtoul_value (base : Nat) (neg : Bool) (ds : CStr) : Nat :=
  let v := digits_value base ds
  if 2 ^ 64 ≤ v then 2 ^ 64 - 1
  else if neg then (2 ^ 64 - v) % 2 ^ 64 else v

/-- `strtol` on a collected subject sequence: saturates at `LONG_MIN` and
`LONG_MAX`. -/
def strtol_value (base : Nat) (neg : Bool) (ds : CStr) : Int :=
  let v := digits_value base ds
  if neg then (if 2 ^ 63 < v then -(2 ^ 63 : Int) else -(v : Int))
  else (if 2 ^ 63 ≤ v then (2 ^ 63 : Int) - 1 else (v : Int))

/-- Conversion of a `long` to `int` (two's complement truncation to 32 bits). -/
def to_int32 (x : Int) : Int :=
  (x + 2 ^ 31) % 2 ^ 32 - 2 ^ 31

/-- One conversion (`%s`, `%lx` or `%d`) on the input: white space is skipped
first, and the end of the input there is an input failure. -/
def convert (c : Conversion) (inp : CStr) : Conv :=
  match inp.dropWhile isspace with
  | [] => Conv.input_failure
  | x :: xs =>
    match c with
    | Conversion.s =>
      Conv.assigned (Arg.str ((x :: xs).takeWhile (fun y => !isspace y)))
        ((x :: xs).dropWhile (fun y => !isspace y))
    | Conversion.lx =>
      match scan_integer 16 (x :: xs) with
      | (neg, some ds, rest) => Conv.assigned (Arg.ulong (strtoul_value 16 neg ds)) rest
      | (_, none, _) => Conv.matching_failure
    | Conversion.d =>
      match scan_integer 10 (x :: xs) with
      | (neg, some ds, rest) => Conv.assigned (Arg.int (to_int32 (strtol_value 10 neg ds))) rest
      | (_, none, _) => Conv.matching_failure

/-- The directive loop of `sscanf`: `done` are the values assigned so far.
Returns the return value of `sscanf` and the values assigned, in order.  An
input failure before the first assignment yields `EOF`; any other failure
yields the number of assignments made. -/
def vsscanf : List Directive → CStr → List Arg → Int × List Arg
  | [], _, done => ((done.length : Int), done)
  | Directive.ws :: fmt, inp, done => vsscanf fmt (inp.dropWhile isspace) done
  | Directive.conv c :: fmt, inp, done =>
    match convert c inp with
    | Conv.input_failure => (if done.isEmpty then EOF else (done.length : Int), done)
    | Conv.matching_failure => ((done.length : Int), done)
    | Conv.assigned v rest => vsscanf fmt rest (done ++ [v])

/-- `sscanf(string, fmt, ...)`: the return value and the values stored through
the pointer arguments, in order. -/
def sscanf (string : CStr) (fmt : List Directive) : Int × List Arg :=
  vsscanf fmt string []

/-- The directive `%s`. -/
abbrev fmt_s : Directive := Directive.conv Conversion.s

/-- The directive `%lx`. -/
abbrev fmt_lx : Directive := Directive.conv Conversion.lx

/-- The directive `%d`. -/
abbrev fmt_d : Directive := Directive.conv Conversion.d

/-- `BUFSIZ` of `<stdio.h>`, the size of the text arrays of the records and of
the line buffers (glibc: 8192). -/
def BUFSIZ : Nat := 8192

/-! ## `/proc/modules` entries -/

/-- `kmodule_t` of `kutil.h`. -/
structure kmodule_t where
  size : Nat
  offset : Nat
  instances : Int
  state : CStr
  kmodule : CStr
  dependencies : CStr
  deriving DecidableEq, Repr

/-- What a parser leaves behind: whether the pointer it returns is non-NULL
(it is then `information`), and the contents of `*information` after the call. -/
structure Parsed (α : Type) where
  ret : Bool
  mem : α
  deriving DecidableEq, Repr

/-- The record the returned pointer points to, `none` for `NULL`. -/
def Parsed.value {α : Type} (p : Parsed α) : Option α :=
  if p.ret then some p.mem else none

/-- The format `"%s %lx %d %s %s %lx"`. -/
def module_format : List Directive :=
  [fmt_s, Directive.ws, fmt_lx, Directive.ws, fmt_d, Directive.ws,
   fmt_s, Directive.ws, fmt_s, Directive.ws, fmt_lx]

/-- Stores the `k`-th converted value through the `k`-th pointer argument of
the `sscanf` call in `parse_loaded_module_data`. -/
def module_store (information : kmodule_t) : Nat → Arg → kmodule_t
  | 0, Arg.str v => { information with kmodule := v }
  | 1, Arg.ulong v => { information with size := v }
  | 2, Arg.int v => { information with instances := v }
  | 3, Arg.str v => { information with dependencies := v }
  | 4, Arg.str v => { information with state := v }
  | 5, Arg.ulong v => { information with offset := v }
  | _, _ => information

/-- Stores converted values starting at pointer argument `k`. -/
def module_store_all (information : kmodule_t) : Nat → List Arg → kmodule_t
  | _, [] => information
  | k, v :: vs => module_store_all (module_store information k v) (k + 1) vs

/-- `parse_loaded_module_data` (kutil.c:89). -/
def parse_loaded_module_data (information : kmodule_t) (string : CStr) : Parsed kmodule_t :=
  let r := sscanf string module_format
  let information := module_store_all information 0 r.2
  if r.1 = 0 then ⟨false, information⟩ else ⟨true, information⟩

/-! ## `/proc/kallsyms` entries -/

/-- `syscall_t` of `kutil.h`. -/
structure syscall_t where
  addr : Nat
  symbol : CStr
  kmodule : CStr
  symbol_type : CStr
  deriving DecidableEq, Repr

/-- The format `"%lx %s %s %s"`. -/
def symbol_format4 : List Directive :=
  [fmt_lx, Directive.ws, fmt_s, Directive.ws, fmt_s, Directive.ws, fmt_s]

/-- The format `"%lx %s %s"`. -/
def symbol_format3 : List Directive :=
  [fmt_lx, Directive.ws, fmt_s, Directive.ws, fmt_s]

/-- Stores the `k`-th converted value through the `k`-th pointer argument of
the `sscanf` calls in `parse_kernel_symbol_information`. -/
def symbol_store (information : syscall_t) : Nat → Arg → syscall_t
  | 0, Arg.ulong v => { information with addr := v }
  | 1, Arg.str v => { information with symbol_type := v }
  | 2, Arg.str v => { information with symbol := v }
  | 3, Arg.str v => { information with kmodule := v }
  | _, _ => information

/-- Stores converted values starting at pointer argument `k`. -/
def symbol_store_all (information : syscall_t) : Nat → List Arg → syscall_t
  | _, [] => information
  | k, v :: vs => symbol_store_all (symbol_store information k v) (k + 1) vs

/-- `parse_kernel_symbol_information` (kutil.c:102). -/
def parse_kernel_symbol_information (information : syscall_t) (string : CStr) :
    Parsed syscall_t :=
  let r4 := sscanf string symbol_format4
  let information := symbol_store_all information 0 r4.2
  if r4.1 = 0 then
    let r3 := sscanf string symbol_format3
    let information := symbol_store_all information 0 r3.2
    if r3.1 = 0 then ⟨false, information⟩ else ⟨true, information⟩
  else ⟨true, information⟩

/-! ## C library: `strstr`, `strlen`, `strncmp` -/

/-- `strstr(haystack, needle)`: the suffix of `haystack` that starts at the
first occurrence of `needle`, `none` for `NULL`. -/
def strstr : CStr → CStr → Option CStr
  | [], needle => if needle = [] then some [] else none
  | c :: cs, needle =>
    if needle.isPrefixOf (c :: cs) then some (c :: cs) else strstr cs needle

/-- The terminating character of a C string. -/
def NUL : Char := Char.ofNat 0

/-- The C string a character array holds: the characters before the first NUL. -/
def cstr (buf : List Char) : CStr := buf.takeWhile (fun c => decide (c ≠ NUL))

/-- `strlen`: the number of characters before the terminator. -/
def strlen : CStr → Nat
  | [] => 0
  | c :: cs => if c = NUL then 0 else strlen cs + 1

/-- `strncmp(s1, s2, n)`: characters are compared as `unsigned char`, the end
of a string is the character NUL, and the comparison stops at the first
difference, after a NUL, or after `n` characters. -/
def strncmp : CStr → CStr → Nat → Int
  | _, _, 0 => 0
  | s1, s2, n + 1 =>
    let a := s1.headD NUL
    let b := s2.headD NUL
    if a ≠ b then (a.toNat : Int) - (b.toNat : Int)
    else if a = NUL then 0
    else strncmp s1.tail s2.tail n

/-! ## Scans of the `/proc` tables -/

/-- The loop of `resolve_kernel_symbol`: `temp` says whether the pointer
`temp` is non-NULL (it is then `information`). -/
def resolve_kernel_symbol_loop (kernel_symbol : CStr) :
    List CStr → Bool → syscall_t → Bool × syscall_t
  | [], temp, information => (temp, information)
  | buffer :: file, temp, information =>
    if (strstr buffer kernel_symbol).isSome then
      let p := parse_kernel_symbol_information information buffer
      resolve_kernel_symbol_loop kernel_symbol file p.ret p.mem
    else
      resolve_kernel_symbol_loop kernel_symbol file temp information

/-- A pointer to a heap block, as the caller of a function receives it:
whether the block is still allocated, and the contents the block held when the
function returned. -/
structure HeapPtr (α : Type) where
  allocated : Bool
  contents : α
  deriving DecidableEq, Repr

/-- Reading through a pointer.  It is defined only while the block is
allocated: reading a freed block is undefined behaviour, `none` here. -/
def HeapPtr.read {α : Type} (p : HeapPtr α) : Option α :=
  if p.allocated then some p.contents else none

/-- `resolve_kernel_symbol` (kutil.c:115).  `malloc_result` is what `malloc`
returned (`none` for NULL, otherwise the uninitialised contents),
`fopen_result` the lines of `/proc/kallsyms` (`none` when `fopen` fails).  The
result is the pointer `temp`, `none` for NULL.  When it is not NULL it is
`information`, whose block `free(information)` has released just before the
`return`: the pointer comes back with `allocated := false`, and `contents` is
what the block held at the `free`. -/
def resolve_kernel_symbol (malloc_result : Option syscall_t)
    (fopen_result : Option (List CStr)) (kernel_symbol : CStr) :
    Option (HeapPtr syscall_t) :=
  match malloc_result, fopen_result with
  | some information, some file =>
    let r := resolve_kernel_symbol_loop kernel_symbol file false information
    if r.1 then some ⟨false, r.2⟩ else none
  | _, _ => none

/-- Standard output of the module listing: the records passed to
`print_module_information`, in order. -/
abbrev Stdout := List kmodule_t

/-- `print_module_information` (kutil.c:65). -/
def print_module_information (out : Stdout) (module : kmodule_t) : Stdout :=
  out ++ [module]

/-- The loop of `fetch_module_data`. -/
def fetch_module_data_loop (module_name : CStr) :
    List CStr → kmodule_t → Stdout → Stdout
  | [], _, out => out
  | buffer :: file, information, out =>
    let temp := parse_loaded_module_data information buffer
    if temp.ret then
      if strncmp temp.mem.kmodule module_name (strlen temp.mem.kmodule) = 0 then
        fetch_module_data_loop module_name file temp.mem (print_module_information out temp.mem)
      else
        fetch_module_data_loop module_name file temp.mem out
    else
      fetch_module_data_loop module_name file temp.mem out

/-- `fetch_module_data` (kutil.c:172): the return value and what was printed. -/
def fetch_module_data (fopen_result : Option (List CStr))
    (malloc_result : Option kmodule_t) (module_name : CStr) : Bool × Stdout :=
  match fopen_result, malloc_result with
  | some file, some information => (true, fetch_module_data_loop module_name file information [])
  | _, _ => (false, [])

/-! ## Shapes of input text -/

/-- Every character is white space. -/
def Blank (ws : CStr) : Prop := ∀ c ∈ ws, isspace c = true

/-- A separator: a non-empty run of white space. -/
def Sep (ws : CStr) : Prop := ws ≠ [] ∧ Blank ws

/-- A field: a non-empty run of characters that are not white space. -/
def Field (tok : CStr) : Prop := tok ≠ [] ∧ ∀ c ∈ tok, isspace c = false

/-- A non-empty run of digits of the given base. -/
def Digits (base : Nat) (ds : CStr) : Prop := ds ≠ [] ∧ ∀ c ∈ ds, is_digit base c = true

/-- The text ends here or goes on with white space. -/
def Stops (rest : CStr) : Prop := ∀ c ∈ rest.head?, isspace c = true

/-- Numeric value of a digit text in the given base. -/
def text_value (base : Nat) (ds : CStr) : Nat :=
  Nat.ofDigits base ((ds.map (fun c => (digit_value c).getD 0)).reverse)

instance (ws : CStr) : Decidable (Blank ws) := by unfold Blank; infer_instance

instance (ws : CStr) : Decidable (Sep ws) := by unfold Sep; infer_instance

instance (tok : CStr) : Decidable (Field tok) := by unfold Field; infer_instance

instance (base : Nat) (ds : CStr) : Decidable (Digits base ds) := by unfold Digits; infer_instance

instance (rest : CStr) : Decidable (Stops rest) := by unfold Stops; infer_instance

/-- The optional radix mark of a hexadecimal text: nothing, `0x` or `0X`. -/
def RadixMark (pfx : CStr) : Prop := pfx = [] ∨ pfx = ['0', 'x'] ∨ pfx = ['0', 'X']

/-- The optional sign of a decimal text: nothing, `-` or `+`. -/
def Sign (sg : CStr) : Prop := sg = [] ∨ sg = ['-'] ∨ sg = ['+']

instance (pfx : CStr) : Decidable (RadixMark pfx) := by unfold RadixMark; infer_instance

instance (sg : CStr) : Decidable (Sign sg) := by unfold Sign; infer_instance

/-- The integer a signed decimal text denotes. -/
def signed_value (sg ds : CStr) : Int :=
  if sg = ['-'] then -(text_value 10 ds : Int) else (text_value 10 ds : Int)

/-! ## Well-formed `/proc/modules` lines -/

/-- A six-field module line, given by its pieces: white space `ws0 .. ws5`
before each field, the name, the size (an optional `0x` and hexadecimal
digits), the instance count (an optional sign and decimal digits), the
dependencies, the state, the offset (as the size), and what follows. -/
structure ModuleLine where
  ws0 : CStr
  name : CStr
  ws1 : CStr
  size_radix : CStr
  size_digits : CStr
  ws2 : CStr
  instances_sign : CStr
  instances_digits : CStr
  ws3 : CStr
  dependencies : CStr
  ws4 : CStr
  state : CStr
  ws5 : CStr
  offset_radix : CStr
  offset_digits : CStr
  tail : CStr

/-- The text of the line. -/
def ModuleLine.text (l : ModuleLine) : CStr :=
  l.ws0 ++ (l.name ++ (l.ws1 ++ (l.size_radix ++ (l.size_digits ++ (l.ws2 ++
    (l.instances_sign ++ (l.instances_digits ++ (l.ws3 ++ (l.dependencies ++ (l.ws4 ++
    (l.state ++ (l.ws5 ++ (l.offset_radix ++ (l.offset_digits ++ l.tail))))))))))))))

/-- The line is well formed: fields separated by white space, size and offset
hexadecimal and below `2^64`, instances a decimal integer of 32 bits; after the
offset the line ends or goes on with white space; the line fits the line
buffer of `BUFSIZ` characters, hence each text field its array. -/
def ModuleLine.WellFormed (l : ModuleLine) : Prop :=
  Blank l.ws0 ∧ Field l.name ∧
  Sep l.ws1 ∧ RadixMark l.size_radix ∧ Digits 16 l.size_digits ∧
    text_value 16 l.size_digits < 2 ^ 64 ∧
  Sep l.ws2 ∧ Sign l.instances_sign ∧ Digits 10 l.instances_digits ∧
    -(2 ^ 31 : Int) ≤ signed_value l.instances_sign l.instances_digits ∧
    signed_value l.instances_sign l.instances_digits < 2 ^ 31 ∧
  Sep l.ws3 ∧ Field l.dependencies ∧
  Sep l.ws4 ∧ Field l.state ∧
  Sep l.ws5 ∧ RadixMark l.offset_radix ∧ Digits 16 l.offset_digits ∧
    text_value 16 l.offset_digits < 2 ^ 64 ∧
  Stops l.tail ∧
  l.text.length < BUFSIZ

instance (l : ModuleLine) : Decidable l.WellFormed := by
  unfold ModuleLine.WellFormed; infer_instance

/-- The six source values of the line. -/
def ModuleLine.record (l : ModuleLine) : kmodule_t :=
  { size := text_value 16 l.size_digits
    offset := text_value 16 l.offset_digits
    instances := signed_value l.instances_sign l.instances_digits
    state := l.state
    kmodule := l.name
    dependencies := l.dependencies }

/-! ## Well-formed `/proc/kallsyms` lines -/

/-- A four-field symbol line, given by its pieces: white space before each
field, the address (hexadecimal digits), the type, the name, the owning
module, and the white space that ends the line. -/
structure SymbolLine4 where
  ws0 : CStr
  addr_digits : CStr
  ws1 : CStr
  symbol_type : CStr
  ws2 : CStr
  symbol : CStr
  ws3 : CStr
  kmodule : CStr
  tail : CStr

/-- The text of the line. -/
def SymbolLine4.text (l : SymbolLine4) : CStr :=
  l.ws0 ++ (l.addr_digits ++ (l.ws1 ++ (l.symbol_type ++ (l.ws2 ++ (l.symbol ++
    (l.ws3 ++ (l.kmodule ++ l.tail)))))))

/-- The line has exactly four fields, separated by white space, the first a
hexadecimal number below `2^64`; the line fits the line buffer of `BUFSIZ`
characters and the type its array of 16. -/
def SymbolLine4.WellFormed (l : SymbolLine4) : Prop :=
  Blank l.ws0 ∧ Digits 16 l.addr_digits ∧ text_value 16 l.addr_digits < 2 ^ 64 ∧
  Sep l.ws1 ∧ Field l.symbol_type ∧
  Sep l.ws2 ∧ Field l.symbol ∧
  Sep l.ws3 ∧ Field l.kmodule ∧
  Blank l.tail ∧
  l.text.length < BUFSIZ ∧ l.symbol_type.length < 16

instance (l : SymbolLine4) : Decidable l.WellFormed := by
  unfold SymbolLine4.WellFormed; infer_instance

/-- The four source values of the line. -/
def SymbolLine4.record (l : SymbolLine4) : syscall_t :=
  { addr := text_value 16 l.addr_digits
    symbol := l.symbol
    kmodule := l.kmodule
    symbol_type := l.symbol_type }

/-- A three-field symbol line: address, type, name, and the white space that
ends the line. -/
structure SymbolLine3 where
  ws0 : CStr
  addr_digits : CStr
  ws1 : CStr
  symbol_type : CStr
  ws2 : CStr
  symbol : CStr
  tail : CStr

/-- The text of the line. -/
def SymbolLine3.text (l : SymbolLine3) : CStr :=
  l.ws0 ++ (l.addr_digits ++ (l.ws1 ++ (l.symbol_type ++ (l.ws2 ++ (l.symbol ++ l.tail)))))

/-- The line has exactly three fields, separated by white space, the first a
hexadecimal number below `2^64`; the line fits the line buffer of `BUFSIZ`
characters and the type its array of 16. -/
def SymbolLine3.WellFormed (l : SymbolLine3) : Prop :=
  Blank l.ws0 ∧ Digits 16 l.addr_digits ∧ text_value 16 l.addr_digits < 2 ^ 64 ∧
  Sep l.ws1 ∧ Field l.symbol_type ∧
  Sep l.ws2 ∧ Field l.symbol ∧
  Blank l.tail ∧
  l.text.length < BUFSIZ ∧ l.symbol_type.length < 16

instance (l : SymbolLine3) : Decidable l.WellFormed := by
  unfold SymbolLine3.WellFormed; infer_instance

/-- The record after decoding the line into a buffer whose owning-module field
held `kmodule`: the three source values, and `kmodule` untouched. -/
def SymbolLine3.record (l : SymbolLine3) (kmodule : CStr) : syscall_t :=
  { addr := text_value 16 l.addr_digits
    symbol := l.symbol
    kmodule := kmodule
    symbol_type := l.symbol_type }

/-! ## Vocabulary of the scan properties -/

/-- The lines of the table that contain `name` as a substring, in file order. -/
def matching_lines (file : List CStr) (name : CStr) : List CStr :=
  file.filter (fun line => decide (name <:+: line))

/-- The record buffer after the given lines were decoded into it, one after
the other. -/
def decode_symbols (information : syscall_t) (lines : List CStr) : syscall_t :=
  lines.foldl (fun info line => (parse_kernel_symbol_information info line).mem) information

/-- The record each line of the module table decodes to, in file order: the
contents of the record buffer after `parse_loaded_module_data` on that line. -/
def decoded_modules (information : kmodule_t) : List CStr → List kmodule_t
  | [] => []
  | line :: file =>
    let m := (parse_loaded_module_data information line).mem
    m :: decoded_modules m file

/-! ## Kernel log tokens -/

/-- `strtok_r(str, delim, &save_ptr)`: scanning starts at `str`, or at
`save_ptr` when `str` is NULL; leading delimiters are skipped; the token runs
up to the next delimiter, which is overwritten by NUL.  Returns the token
(`none` for NULL) and the new `save_ptr`. -/
def strtok_r (str : Option CStr) (delim : CStr) (save_ptr : CStr) : Option CStr × CStr :=
  let s := match str with
    | some s => s
    | none => save_ptr
  match s.dropWhile (fun c => delim.contains c) with
  | [] => (none, [])
  | c :: cs =>
    let token := (c :: cs).takeWhile (fun x => !delim.contains x)
    match (c :: cs).dropWhile (fun x => !delim.contains x) with
    | [] => (some token, [])
    | _ :: rest => (some token, rest)

/-- A node of the linked list, `token_t` of `kutil.h`; the list itself is the
list of its nodes, `[]` for a NULL head. -/
structure token_t where
  index : Int
  token : Option CStr
  deriving DecidableEq, Repr

/-- `append_token` (kutil.c:289): walks to the last node and links a new one. -/
def append_token : List token_t → Int → Option CStr → List token_t
  | [], index, token => [⟨index, token⟩]
  | node :: next, index, token => node :: append_token next index token

/-- `return_parsed_messages` (kutil.c:351). -/
def return_parsed_messages (log : CStr) : List token_t :=
  let head : List token_t := []
  let t0 := strtok_r (some log) [';'] []
  let t1 := strtok_r none [':'] t0.2
  let head := append_token head 0 t1.1
  let t2 := strtok_r none [] t1.2
  let head := append_token head 1 t2.1
  head

/-- `delete_token` (kutil.c:310): unlinks the first node whose index is
`index`, if there is one. -/
def delete_token : List token_t → Int → List token_t
  | [], _ => []
  | node :: next, index =>
    if node.index = index then next else node :: delete_token next index

/-- What `kutil_log("%s: %s\n", key, body)` prints (kutil.c:34, 339): the
tag `[kutil]: `, the key, `: `, the body and a newline.  A NULL argument of a
`%s` conversion is undefined behaviour, `none` here. -/
def kutil_log_tokens (key body : Option CStr) : Option CStr :=
  match key, body with
  | some k, some b => some ("[kutil]: ".toList ++ k ++ ": ".toList ++ b ++ "\n".toList)
  | _, _ => none

/-- `print_formatted_messages` (kutil.c:338): prints the tokens of the first
two nodes, then deletes the nodes of index 0 and 1.  Returns what was printed
(`none` when the behaviour is undefined: a missing node, or a NULL token) and
the list that is left. -/
def print_formatted_messages (head : List token_t) : Option CStr × List token_t :=
  let printed : Option CStr :=
    match head with
    | first :: second :: _ => kutil_log_tokens first.token second.token
    | _ => none
  (printed, delete_token (delete_token head 0) 1)

/-! ## Module loading over an abstract kernel interface -/

/-- A call the loader makes, with its arguments and its result. -/
inductive Event where
  | sys_open (path : Option CStr) (ret : Int)
  | sys_fstat (fd : Int) (ret : Int)
  | malloc (size : Int) (ok : Bool)
  | sys_read (fd : Int) (count : Int) (ret : Int)
  | sys_init_module (image : List Nat) (len : Int) (params : Option CStr) (ret : Int)
  | sys_finit_module (fd : Int) (params : Option CStr) (flags : Int) (ret : Int)
  | sys_close (fd : Int)
  | free
  | call_invoke_finite_module (params : Option CStr) (module_path : Option CStr)
  deriving DecidableEq, Repr

/-- The kernel (and allocator) as the loader sees it: each request maps the
state of the system to a result and a new state.  `sys_fstat` yields the return
value and `st_size`; `sys_read` the return value and the contents of the buffer
after the call.  Opening a NULL path fails, as `open(2)` does with `EFAULT`. -/
structure Kernel (σ : Type) where
  sys_open : Option CStr → σ → Int × σ
  sys_fstat : Int → σ → (Int × Int) × σ
  malloc : Int → σ → Bool × σ
  sys_read : Int → Int → σ → (Int × List Nat) × σ
  sys_init_module : List Nat → Int → Option CStr → σ → Int × σ
  sys_finit_module : Int → Option CStr → Int → σ → Int × σ
  sys_close : Int → σ → σ
  open_null : ∀ s, (sys_open none s).1 = -1

/-- The state of a run: the state of the system and the calls made so far. -/
structure World (σ : Type) where
  kernel : σ
  trace : List Event

variable {σ : Type}

/-- `open(path, O_RDONLY)`. -/
def do_open (K : Kernel σ) (path : Option CStr) (w : World σ) : Int × World σ :=
  let r := K.sys_open path w.kernel
  (r.1, ⟨r.2, w.trace ++ [Event.sys_open path r.1]⟩)

/-- `fstat(fd, &st_stat)`: the return value and `st_stat.st_size`. -/
def do_fstat (K : Kernel σ) (fd : Int) (w : World σ) : (Int × Int) × World σ :=
  let r := K.sys_fstat fd w.kernel
  (r.1, ⟨r.2, w.trace ++ [Event.sys_fstat fd r.1.1]⟩)

/-- `malloc(size)`: whether the pointer is non-NULL. -/
def do_malloc (K : Kernel σ) (size : Int) (w : World σ) : Bool × World σ :=
  let r := K.malloc size w.kernel
  (r.1, ⟨r.2, w.trace ++ [Event.malloc size r.1]⟩)

/-- `read(fd, module, count)`: the return value and the buffer afterwards. -/
def do_read (K : Kernel σ) (fd : Int) (count : Int) (w : World σ) :
    (Int × List Nat) × World σ :=
  let r := K.sys_read fd count w.kernel
  (r.1, ⟨r.2, w.trace ++ [Event.sys_read fd count r.1.1]⟩)

/-- `syscall(__NR_init_module, module, len, params)`. -/
def do_init_module (K : Kernel σ) (image : List Nat) (len : Int) (params : Option CStr)
    (w : World σ) : Int × World σ :=
  let r := K.sys_init_module image len params w.kernel
  (r.1, ⟨r.2, w.trace ++ [Event.sys_init_module image len params r.1]⟩)

/-- `syscall(__NR_finit_module, fd, params, flags)`. -/
def do_finit_module (K : Kernel σ) (fd : Int) (params : Option CStr) (flags : Int)
    (w : World σ) : Int × World σ :=
  let r := K.sys_finit_module fd params flags w.kernel
  (r.1, ⟨r.2, w.trace ++ [Event.sys_finit_module fd params flags r.1]⟩)

/-- `close(fd)`. -/
def do_close (K : Kernel σ) (fd : Int) (w : World σ) : World σ :=
  ⟨K.sys_close fd w.kernel, w.trace ++ [Event.sys_close fd]⟩

/-- `free(module)`. -/
def do_free (w : World σ) : World σ :=
  ⟨w.kernel, w.trace ++ [Event.free]⟩

/-- The end of `invoke_finite_module` (kutil.c:275): the request with
`module_path` as its parameter string. -/
def invoke_finite_module_request (K : Kernel σ) (file : Int) (module_path : Option CStr)
    (w : World σ) : Bool × World σ :=
  let r := do_finit_module K file module_path 0 w
  if r.1 ≠ 0 then (false, r.2)
  else (true, do_close K file r.2)

/-- `invoke_finite_module` (kutil.c:266).  Its entry is recorded in the trace. -/
def invoke_finite_module (K : Kernel σ) (params module_path : Option CStr) (w : World σ) :
    Bool × World σ :=
  let w : World σ := ⟨w.kernel, w.trace ++ [Event.call_invoke_finite_module params module_path]⟩
  let o := do_open K module_path w
  if o.1 = -1 then (false, o.2)
  else if module_path = none then
    let r := do_finit_module K o.1 (some []) 0 o.2
    if r.1 ≠ 0 then (false, r.2)
    else invoke_finite_module_request K o.1 module_path r.2
  else invoke_finite_module_request K o.1 module_path o.2

/-- The end of `insert_kernel_module` (kutil.c:244): the request with `params`,
then the fallback or the release of the descriptor and the image. -/
def insert_kernel_module_request (K : Kernel σ) (params module_path : Option CStr)
    (file : Int) (image : List Nat) (size : Int) (w : World σ) : Bool × World σ :=
  let r := do_init_module K image size params w
  if r.1 ≠ 0 then invoke_finite_module K params module_path (do_free r.2)
  else (true, do_free (do_close K file r.2))

/-- `insert_kernel_module` (kutil.c:211). -/
def insert_kernel_module (K : Kernel σ) (params module_path : Option CStr) (w : World σ) :
    Bool × World σ :=
  let o := do_open K module_path w
  if o.1 = -1 then (false, o.2)
  else
    let st := do_fstat K o.1 o.2
    if st.1.1 = -1 then (false, st.2)
    else
      let m := do_malloc K st.1.2 st.2
      if m.1 = false then (false, m.2)
      else
        let rd := do_read K o.1 st.1.2 m.2
        if rd.1.1 = -1 then (false, rd.2)
        else if module_path = none then
          let r := do_init_module K rd.1.2 st.1.2 (some []) rd.2
          if r.1 ≠ 0 then invoke_finite_module K params module_path (do_free r.2)
          else insert_kernel_module_request K params module_path o.1 rd.1.2 st.1.2 r.2
        else insert_kernel_module_request K params module_path o.1 rd.1.2 st.1.2 rd.2

/-- The image is read successfully: `open`, `fstat`, `malloc` and `read` all
succeed.  Yields the descriptor, `st_size`, the image and the state reached. -/
def read_image (K : Kernel σ) (module_path : Option CStr) (w : World σ) :
    Option (Int × Int × List Nat × World σ) :=
  let o := do_open K module_path w
  if o.1 = -1 then none
  else
    let st := do_fstat K o.1 o.2
    if st.1.1 = -1 then none
    else
      let m := do_malloc K st.1.2 st.2
      if m.1 = false then none
      else
        let rd := do_read K o.1 st.1.2 m.2
        if rd.1.1 = -1 then none
        else some (o.1, st.1.2, rd.1.2, rd.2)

/-- The load requests in a trace: `init_module` and `finit_module`. -/
def load_requests (t : List Event) : List Event :=
  t.filter (fun e =>
    match e with
    | Event.sys_init_module _ _ _ _ => true
    | Event.sys_finit_module _ _ _ _ => true
    | _ => false)

/-- The parameter strings of the load-from-memory requests in a trace. -/
def primary_requests (t : List Event) : List (Option CStr) :=
  t.filterMap (fun e =>
    match e with
    | Event.sys_init_module _ _ params _ => some params
    | _ => none)

/-- The calls of `invoke_finite_module` in a trace, with their arguments. -/
def fallback_calls (t : List Event) : List (Option CStr × Option CStr) :=
  t.filterMap (fun e =>
    match e with
    | Event.call_invoke_finite_module params module_path => some (params, module_path)
    | _ => none)

/-- A kernel without state, for examples: `open` yields descriptor 3 (and
fails on NULL), the file has 4 bytes, and the two load requests return
`init_ret` and `finit_ret`; with `readable = false` the read fails. -/
def scripted_kernel (readable : Bool) (init_ret finit_ret : Int) : Kernel Unit where
  sys_open := fun path s => (if path = none then -1 else 3, s)
  sys_fstat := fun _ s => ((0, 4), s)
  malloc := fun _ s => (true, s)
  sys_read := fun _ _ s => ((if readable then 4 else -1, [127, 69, 76, 70]), s)
  sys_init_module := fun _ _ _ s => (init_ret, s)
  sys_finit_module := fun _ _ _ s => (finit_ret, s)
  sys_close := fun _ s => s
  open_null := fun _ => rfl

/-- The calls made between two states of a run. -/
def events_since (w w1 : World σ) : List Event :=
  w1.trace.drop w.trace.length

/-- Whether an event is a load request that the kernel accepted. -/
def request_accepted : Event → Bool
  | Event.sys_init_module _ _ _ ret => decide (ret = 0)
  | Event.sys_finit_module _ _ _ ret => decide (ret = 0)
  | _ => false

/-! ## Lemmas on the `sscanf` model -/

theorem digits_value_append (base : Nat) (ds : CStr) (c : Char) :
    digits_value base (ds ++ [c]) = digits_value base ds * base + (digit_value c).getD 0 := by
  simp [digits_value, List.foldl_append]

theorem digits_value_eq_text_value (base : Nat) (ds : CStr) :
    digits_value base ds = text_value base ds := by
  induction ds using List.reverseRecOn with
  | nil => simp [digits_value, text_value]
  | append_singleton ds c ih =>
    rw [digits_value_append, ih]
    simp [text_value, Nat.ofDigits_cons]
    ring

theorem digits_value_cons_zero (base : Nat) (ds : CStr) :
    digits_value base ('0' :: ds) = digits_value base ds := by
  have h : (digit_value '0').getD 0 = 0 := by decide
  simp [digits_value, List.foldl_cons, h]

theorem stops_of_sep {ws : CStr} (h : Sep ws) (r : CStr) : Stops (ws ++ r) := by
  obtain ⟨hne, hb⟩ := h
  cases ws with
  | nil => exact absurd rfl hne
  | cons a t =>
    intro c hc
    simp at hc
    subst hc
    exact hb _ (List.mem_cons_self _ _)

theorem dropWhile_blank_append {ws : CStr} (h : Blank ws) (r : CStr) :
    (ws ++ r).dropWhile isspace = r.dropWhile isspace :=
  List.dropWhile_append_of_pos h

theorem takeWhile_stop {p : Char → Bool} {tok rest : CStr} (htok : ∀ c ∈ tok, p c = true)
    (hrest : ∀ c ∈ rest.head?, p c = false) : (tok ++ rest).takeWhile p = tok := by
  rw [List.takeWhile_append_of_pos htok]
  cases rest with
  | nil => simp
  | cons a t =>
    have : p a = false := hrest a (by simp)
    simp [List.takeWhile_cons, this]

theorem dropWhile_stop {p : Char → Bool} {tok rest : CStr} (htok : ∀ c ∈ tok, p c = true)
    (hrest : ∀ c ∈ rest.head?, p c = false) : (tok ++ rest).dropWhile p = rest := by
  rw [List.dropWhile_append_of_pos htok]
  cases rest with
  | nil => simp
  | cons a t =>
    have : p a = false := hrest a (by simp)
    simp [List.dropWhile_cons, this]

theorem is_digit_of_isspace {base : Nat} {c : Char} (h : isspace c = true) :
    is_digit base c = false := by
  have hc : c.toNat = 32 ∨ (9 ≤ c.toNat ∧ c.toNat ≤ 13) := by
    simpa [isspace] using h
  have hd : digit_value c = none := by
    unfold digit_value
    rw [if_neg (by omega), if_neg (by omega), if_neg (by omega)]
  simp [is_digit, hd]

theorem isspace_of_is_digit {base : Nat} {c : Char} (h : is_digit base c = true) :
    isspace c = false := by
  cases hs : isspace c with
  | false => rfl
  | true =>
    have hc : c.toNat = 32 ∨ (9 ≤ c.toNat ∧ c.toNat ≤ 13) := by
      simpa [isspace] using hs
    have hd : digit_value c = none := by
      unfold digit_value
      rw [if_neg (by omega), if_neg (by omega), if_neg (by omega)]
    simp [is_digit, hd] at h

theorem convert_s_field {ws tok rest : CStr} (hws : Blank ws) (htok : Field tok)
    (hrest : Stops rest) :
    convert Conversion.s (ws ++ (tok ++ rest)) = Conv.assigned (Arg.str tok) rest := by
  obtain ⟨hne, hnb⟩ := htok
  have hp : ∀ c ∈ tok, (fun y => !isspace y) c = true := by
    intro c hc
    simp [hnb c hc]
  have hr : ∀ c ∈ rest.head?, (fun y => !isspace y) c = false := by
    intro c hc
    simp [hrest c hc]
  have htake := takeWhile_stop hp hr
  have hdrop := dropWhile_stop hp hr
  cases tok with
  | nil => exact absurd rfl hne
  | cons a t =>
    have ha : isspace a = false := hnb a (List.mem_cons_self _ _)
    have hd : (ws ++ (a :: t ++ rest)).dropWhile isspace = a :: (t ++ rest) := by
      rw [dropWhile_blank_append hws]
      simp [List.dropWhile_cons, ha]
    unfold convert
    rw [hd]
    simp only
    rw [← List.cons_append, htake, hdrop]

theorem scan_digits_digits {base : Nat} {ds rest : CStr} (hb : base ≤ 16)
    (hds : Digits base ds) (hrest : Stops rest) :
    scan_digits base (ds ++ rest) = (some ds, rest) := by
  obtain ⟨hne, hd⟩ := hds
  have hr : ∀ c ∈ rest.head?, is_digit base c = false := fun c hc =>
    is_digit_of_isspace (hrest c hc)
  cases ds with
  | nil => exact absurd rfl hne
  | cons a t =>
    have hdt : ∀ c ∈ t, is_digit base c = true := fun c hc => hd c (List.mem_cons_of_mem _ hc)
    have ha : is_digit base a = true := hd a (List.mem_cons_self _ _)
    by_cases h0 : a = '0'
    · have hx : ∀ x, (x = 'x' ∨ x = 'X') → x ∉ (t ++ rest).head? := by
        intro x hx hmem
        have hxd : is_digit base x = false := by
          rcases hx with rfl | rfl
          · have : digit_value 'x' = some 33 := by decide
            simp [is_digit, this]; omega
          · have : digit_value 'X' = some 33 := by decide
            simp [is_digit, this]; omega
        have hxs : isspace x = false := by
          rcases hx with rfl | rfl <;> decide
        cases t with
        | nil =>
          have := hrest x (by simpa using hmem)
          simp [hxs] at this
        | cons b u =>
          have hb2 : b = x := by simpa using hmem
          subst hb2
          have := hdt b (List.mem_cons_self _ _)
          simp [hxd] at this
      have hs2 : (match t ++ rest with
          | x :: u => if base = 16 ∧ (x = 'x' ∨ x = 'X') then u else x :: u
          | [] => []) = t ++ rest := by
        cases htr : t ++ rest with
        | nil => rfl
        | cons x u =>
          have hnx : ¬ (x = 'x' ∨ x = 'X') := by
            intro hx0
            exact hx x hx0 (by simp [htr])
          simp [hnx]
      subst h0
      simp only [List.cons_append, scan_digits, if_true]
      rw [hs2, takeWhile_stop hdt hr, dropWhile_stop hdt hr]
    · simp only [List.cons_append, scan_digits, if_neg h0]
      rw [← List.cons_append, takeWhile_stop hd hr, dropWhile_stop hd hr]
      simp

theorem scan_digits_radix {ds rest : CStr} {x : Char} (hx : x = 'x' ∨ x = 'X')
    (hds : Digits 16 ds) (hrest : Stops rest) :
    scan_digits 16 ('0' :: x :: (ds ++ rest)) = (some ('0' :: ds), rest) := by
  obtain ⟨_, hd⟩ := hds
  have hr : ∀ c ∈ rest.head?, is_digit 16 c = false := fun c hc =>
    is_digit_of_isspace (hrest c hc)
  simp only [scan_digits, if_true, hx, and_self]
  rw [takeWhile_stop hd hr, dropWhile_stop hd hr]

theorem not_sign_of_is_digit {base : Nat} {c : Char} (h : is_digit base c = true) :
    c ≠ '-' ∧ c ≠ '+' := by
  constructor
  · rintro rfl
    have : digit_value '-' = none := by decide
    simp [is_digit, this] at h
  · rintro rfl
    have : digit_value '+' = none := by decide
    simp [is_digit, this] at h

theorem scan_integer_unsigned {base : Nat} {c : Char} (cs : CStr)
    (h : is_digit base c = true) :
    scan_integer base (c :: cs) = (false, scan_digits base (c :: cs)) := by
  obtain ⟨h1, h2⟩ := not_sign_of_is_digit h
  simp [scan_integer, h1, h2]

theorem head_not_space_of_digits {base : Nat} {ds : CStr} (hds : Digits base ds) (rest : CStr) :
    ∃ a t, ds ++ rest = a :: t ∧ is_digit base a = true ∧ isspace a = false := by
  obtain ⟨hne, hd⟩ := hds
  cases ds with
  | nil => exact absurd rfl hne
  | cons a u =>
    have ha := hd a (List.mem_cons_self _ _)
    exact ⟨a, u ++ rest, rfl, ha, isspace_of_is_digit ha⟩

theorem convert_lx_field {ws pfx ds rest : CStr} (hws : Blank ws) (hp : RadixMark pfx)
    (hds : Digits 16 ds) (hrest : Stops rest) (hv : text_value 16 ds < 2 ^ 64) :
    convert Conversion.lx (ws ++ (pfx ++ (ds ++ rest)))
      = Conv.assigned (Arg.ulong (text_value 16 ds)) rest := by
  have hval : strtoul_value 16 false ds = text_value 16 ds := by
    have : ¬ 2 ^ 64 ≤ digits_value 16 ds := by
      rw [digits_value_eq_text_value]; omega
    simp only [strtoul_value, if_neg this]
    simp [digits_value_eq_text_value]
  have hval0 : strtoul_value 16 false ('0' :: ds) = text_value 16 ds := by
    rw [← hval]
    simp [strtoul_value, digits_value_cons_zero]
  have h0d : is_digit 16 '0' = true := by decide
  have h0s : isspace '0' = false := by decide
  unfold convert
  rw [dropWhile_blank_append hws]
  rcases hp with rfl | rfl | rfl
  · obtain ⟨a, t, hat, had, has⟩ := head_not_space_of_digits hds rest
    rw [List.nil_append, hat, List.dropWhile_cons_of_neg (by simp [has])]
    simp only
    rw [scan_integer_unsigned t had, ← hat, scan_digits_digits (by omega) hds hrest]
    simp only [hval]
  · rw [List.cons_append, List.cons_append, List.nil_append,
      List.dropWhile_cons_of_neg (by simp [h0s])]
    simp only
    rw [scan_integer_unsigned _ h0d, scan_digits_radix (Or.inl rfl) hds hrest]
    simp only [hval0]
  · rw [List.cons_append, List.cons_append, List.nil_append,
      List.dropWhile_cons_of_neg (by simp [h0s])]
    simp only
    rw [scan_integer_unsigned _ h0d, scan_digits_radix (Or.inr rfl) hds hrest]
    simp only [hval0]

theorem to_int32_strtol {neg : Bool} {ds : CStr} (v : Int)
    (hv : v = if neg then -(text_value 10 ds : Int) else (text_value 10 ds : Int))
    (hlo : -(2 ^ 31 : Int) ≤ v) (hhi : v < 2 ^ 31) :
    to_int32 (strtol_value 10 neg ds) = v := by
  simp only [to_int32, strtol_value, digits_value_eq_text_value]
  generalize text_value 10 ds = n at hv
  cases neg with
  | true =>
    simp only [if_true] at hv ⊢
    have h1 : ¬ (2 ^ 63 < n) := by omega
    rw [if_neg h1]
    omega
  | false =>
    simp only [Bool.false_eq_true, if_false] at hv ⊢
    have h1 : ¬ (2 ^ 63 ≤ n) := by omega
    rw [if_neg h1]
    omega

theorem convert_d_field {ws sg ds rest : CStr} (hws : Blank ws) (hsg : Sign sg)
    (hds : Digits 10 ds) (hrest : Stops rest)
    (hlo : -(2 ^ 31 : Int) ≤ signed_value sg ds) (hhi : signed_value sg ds < 2 ^ 31) :
    convert Conversion.d (ws ++ (sg ++ (ds ++ rest)))
      = Conv.assigned (Arg.int (signed_value sg ds)) rest := by
  have hm : isspace '-' = false := by decide
  have hp : isspace '+' = false := by decide
  unfold convert
  rw [dropWhile_blank_append hws]
  rcases hsg with rfl | rfl | rfl
  · obtain ⟨a, t, hat, had, has⟩ := head_not_space_of_digits hds rest
    rw [List.nil_append, hat, List.dropWhile_cons_of_neg (by simp [has])]
    simp only
    rw [scan_integer_unsigned t had, ← hat, scan_digits_digits (by omega) hds hrest]
    simp only
    rw [to_int32_strtol (signed_value [] ds) (by simp [signed_value]) hlo hhi]
  · rw [List.cons_append, List.nil_append, List.dropWhile_cons_of_neg (by simp [hm])]
    simp only [scan_integer, if_true]
    rw [scan_digits_digits (by omega) hds hrest]
    simp only
    rw [to_int32_strtol (signed_value ['-'] ds) (by simp [signed_value]) hlo hhi]
  · rw [List.cons_append, List.nil_append, List.dropWhile_cons_of_neg (by simp [hp])]
    have hne : ¬ ('+' = '-') := by decide
    simp only [scan_integer, if_neg hne, if_true]
    rw [scan_digits_digits (by omega) hds hrest]
    simp only
    rw [to_int32_strtol (signed_value ['+'] ds) (by simp [signed_value]) hlo hhi]

theorem convert_dropWhile (c : Conversion) (inp : CStr) :
    convert c (inp.dropWhile isspace) = convert c inp := by
  unfold convert
  rw [List.dropWhile_idempotent]

theorem vsscanf_ws_conv (c : Conversion) (fmt : List Directive) (inp : CStr) (done : List Arg) :
    vsscanf (Directive.ws :: Directive.conv c :: fmt) inp done
      = vsscanf (Directive.conv c :: fmt) inp done := by
  rw [vsscanf, vsscanf, vsscanf, convert_dropWhile]

theorem vsscanf_assigned {c : Conversion} {inp rest : CStr} {v : Arg}
    (h : convert c inp = Conv.assigned v rest) (fmt : List Directive) (done : List Arg) :
    vsscanf (Directive.conv c :: fmt) inp done = vsscanf fmt rest (done ++ [v]) := by
  rw [vsscanf, h]

/-- Once a value is assigned, `sscanf` returns a positive count. -/
theorem vsscanf_ret_pos (fmt : List Directive) (inp : CStr) (done : List Arg)
    (h : done ≠ []) : 0 < (vsscanf fmt inp done).1 := by
  have hlen : (0 : Int) < (done.length : Int) := by
    have := List.length_pos.mpr h
    omega
  induction fmt generalizing inp done with
  | nil => simpa [vsscanf] using hlen
  | cons dir fmt ih =>
    cases dir with
    | ws =>
      rw [vsscanf]
      exact ih _ _ h hlen
    | conv c =>
      rw [vsscanf]
      cases hc : convert c inp with
      | input_failure =>
        have : done.isEmpty = false := by
          cases done with
          | nil => exact absurd rfl h
          | cons a t => rfl
        simpa [this] using hlen
      | matching_failure => simpa using hlen
      | assigned v rest =>
        simp only
        apply ih
        · simp
        · simp

/-- On a well-formed line `sscanf` converts all six fields. -/
theorem sscanf_module_line (l : ModuleLine) (h : l.WellFormed) :
    sscanf l.text module_format
      = (6, [Arg.str l.name, Arg.ulong (text_value 16 l.size_digits),
             Arg.int (signed_value l.instances_sign l.instances_digits),
             Arg.str l.dependencies, Arg.str l.state,
             Arg.ulong (text_value 16 l.offset_digits)]) := by
  obtain ⟨h0, hname, h1, hsp, hsd, hsv, h2, hsg, hid, hlo, hhi, h3, hdep, h4, hst, h5,
    hop, hod, hov, htail, _⟩ := h
  unfold sscanf module_format ModuleLine.text
  rw [vsscanf_assigned (convert_s_field h0 hname (stops_of_sep h1 _)),
    vsscanf_ws_conv,
    vsscanf_assigned (convert_lx_field h1.2 hsp hsd (stops_of_sep h2 _) hsv),
    vsscanf_ws_conv,
    vsscanf_assigned (convert_d_field h2.2 hsg hid (stops_of_sep h3 _) hlo hhi),
    vsscanf_ws_conv,
    vsscanf_assigned (convert_s_field h3.2 hdep (stops_of_sep h4 _)),
    vsscanf_ws_conv,
    vsscanf_assigned (convert_s_field h4.2 hst (stops_of_sep h5 _)),
    vsscanf_ws_conv,
    vsscanf_assigned (convert_lx_field h5.2 hop hod htail hov)]
  simp [vsscanf]

theorem parse_loaded_module_data_line (information : kmodule_t) (l : ModuleLine)
    (h : l.WellFormed) :
    parse_loaded_module_data information l.text = ⟨true, l.record⟩ := by
  unfold parse_loaded_module_data
  rw [sscanf_module_line l h]
  simp [module_store_all, module_store, ModuleLine.record]

/-- The `sscanf` call of `parse_loaded_module_data` never returns 0: its first
directive is `%s`, which fails only at the end of the input. -/
theorem sscanf_module_ne_zero (string : CStr) : (sscanf string module_format).1 ≠ 0 := by
  unfold sscanf module_format
  rw [vsscanf]
  cases hc : convert Conversion.s string with
  | input_failure => simp [EOF]
  | matching_failure =>
    exfalso
    unfold convert at hc
    split at hc <;> simp at hc
  | assigned v rest =>
    simp only
    have := vsscanf_ret_pos [Directive.ws, fmt_lx, Directive.ws, fmt_d, Directive.ws,
      fmt_s, Directive.ws, fmt_s, Directive.ws, fmt_lx] rest ([] ++ [v]) (by simp)
    omega

theorem parse_loaded_module_data_ret (information : kmodule_t) (string : CStr) :
    (parse_loaded_module_data information string).ret = true := by
  unfold parse_loaded_module_data
  simp only
  rw [if_neg (sscanf_module_ne_zero string)]

/-! ## Symbol lines -/

/-- A line with two fields only is returned as a record: `sscanf` yields 2,
which is not 0, and the name and the owning module keep their old contents. -/
theorem parse_symbol_two_fields :
    parse_kernel_symbol_information ⟨7, "bar".toList, "[old]".toList, "t".toList⟩
        "ffffffff81000000 T\n".toList
      = ⟨true, ⟨0xffffffff81000000, "bar".toList, "[old]".toList, "T".toList⟩⟩ := by
  decide

theorem strstr_isSome_iff (haystack needle : CStr) :
    (strstr haystack needle).isSome = true ↔ needle <:+: haystack := by
  induction haystack with
  | nil =>
    by_cases h : needle = []
    · simp [strstr, h]
    · simp [strstr, h]
  | cons c cs ih =>
    rw [strstr, List.infix_cons_iff]
    by_cases hp : needle.isPrefixOf (c :: cs) = true
    · rw [if_pos hp]
      simp [List.isPrefixOf_iff_prefix.mp hp]
    · rw [if_neg hp, ih]
      have : ¬ needle <+: c :: cs := fun h => hp (List.isPrefixOf_iff_prefix.mpr h)
      simp [this]

theorem toNat_sub_ne_zero {a b : Char} (h : a ≠ b) : (a.toNat : Int) - (b.toNat : Int) ≠ 0 := by
  intro h0
  apply h
  have hab : a.toNat = b.toNat := by omega
  calc a = Char.ofNat a.toNat := (Char.ofNat_toNat a).symm
    _ = Char.ofNat b.toNat := by rw [hab]
    _ = b := Char.ofNat_toNat b

theorem cstr_nil : cstr [] = [] := rfl

theorem cstr_cons_NUL (s : CStr) : cstr (NUL :: s) = [] := by
  simp [cstr]

theorem cstr_cons_of_ne {c : Char} (h : c ≠ NUL) (s : CStr) : cstr (c :: s) = c :: cstr s := by
  simp [cstr, h]

/-- The test of `fetch_module_data`: `strncmp` over the length of its first
argument is 0 exactly when that C string is a prefix of the second. -/
theorem strncmp_strlen_eq_zero_iff (s1 s2 : CStr) :
    strncmp s1 s2 (strlen s1) = 0 ↔ cstr s1 <+: cstr s2 := by
  induction s1 generalizing s2 with
  | nil => simp [strlen, strncmp, cstr_nil]
  | cons x s ih =>
    by_cases hx : x = NUL
    · subst hx
      simp [strlen, strncmp, cstr_cons_NUL]
    · rw [strlen, if_neg hx, strncmp, cstr_cons_of_ne hx]
      cases s2 with
      | nil =>
        have hne : (x.toNat : Int) - (NUL.toNat : Int) ≠ 0 := toNat_sub_ne_zero hx
        simp [hx, cstr_nil, hne]
      | cons y t =>
        by_cases hxy : x = y
        · subst hxy
          simp only [List.headD_cons, ne_eq, not_true_eq_false, if_false, if_neg hx,
            List.tail_cons]
          rw [ih t, cstr_cons_of_ne hx]
          constructor
          · intro h
            exact (List.prefix_cons_inj x).mpr h
          · intro h
            exact (List.prefix_cons_inj x).mp h
        · have hne : (x.toNat : Int) - (y.toNat : Int) ≠ 0 := toNat_sub_ne_zero hxy
          simp only [List.headD_cons, ne_eq, hxy, not_false_eq_true, if_true, hne, false_iff]
          by_cases hy : y = NUL
          · subst hy
            simp [cstr_cons_NUL]
          · rw [cstr_cons_of_ne hy]
            intro h
            have := List.cons_prefix_cons.mp h
            exact hxy this.1

theorem cstr_eq_self {s : CStr} (h : ∀ c ∈ s, c ≠ NUL) : cstr s = s := by
  unfold cstr
  rw [List.takeWhile_eq_self_iff]
  intro c hc
  simp [h c hc]

/-! ## Scans -/

theorem resolve_loop_eq_foldl (kernel_symbol : CStr) (file : List CStr) (temp : Bool)
    (information : syscall_t) :
    resolve_kernel_symbol_loop kernel_symbol file temp information
      = (matching_lines file kernel_symbol).foldl
          (fun st line =>
            ((parse_kernel_symbol_information st.2 line).ret,
             (parse_kernel_symbol_information st.2 line).mem))
          (temp, information) := by
  induction file generalizing temp information with
  | nil => simp [resolve_kernel_symbol_loop, matching_lines]
  | cons buffer file ih =>
    rw [resolve_kernel_symbol_loop]
    by_cases h : kernel_symbol <:+: buffer
    · have hs : (strstr buffer kernel_symbol).isSome = true := (strstr_isSome_iff _ _).mpr h
      rw [if_pos hs]
      simp only
      rw [ih]
      simp [matching_lines, List.filter_cons, h]
    · have hs : ¬ (strstr buffer kernel_symbol).isSome = true := fun hs =>
        h ((strstr_isSome_iff _ _).mp hs)
      rw [if_neg hs, ih]
      simp [matching_lines, List.filter_cons, h]

theorem foldl_parse_snd (lines : List CStr) (temp : Bool) (information : syscall_t) :
    (lines.foldl
      (fun (st : Bool × syscall_t) line =>
        ((parse_kernel_symbol_information st.2 line).ret,
         (parse_kernel_symbol_information st.2 line).mem))
      (temp, information)).2 = decode_symbols information lines := by
  induction lines generalizing temp information with
  | nil => simp [decode_symbols]
  | cons line lines ih =>
    simp only [List.foldl_cons]
    rw [ih]
    simp [decode_symbols]

/-- The pointer the scan returns designates the freed buffer, which at the
`free` held what decoding the last matching line left, the buffer being as the
earlier matching lines left it. -/
theorem resolve_kernel_symbol_eq (information : syscall_t) (file : List CStr)
    (kernel_symbol last : CStr)
    (hlast : (matching_lines file kernel_symbol).getLast? = some last) :
    resolve_kernel_symbol (some information) (some file) kernel_symbol
      = (parse_kernel_symbol_information
          (decode_symbols information (matching_lines file kernel_symbol).dropLast)
          last).value.map (fun r => (⟨false, r⟩ : HeapPtr syscall_t)) := by
  have hne : matching_lines file kernel_symbol ≠ [] := by
    intro h
    rw [h] at hlast
    simp at hlast
  have hsplit : matching_lines file kernel_symbol
      = (matching_lines file kernel_symbol).dropLast ++ [last] := by
    have h1 := List.dropLast_append_getLast hne
    have h2 : (matching_lines file kernel_symbol).getLast hne = last := by
      rw [List.getLast?_eq_getLast _ hne] at hlast
      exact Option.some.inj hlast
    rw [h2] at h1
    exact h1.symm
  unfold resolve_kernel_symbol
  simp only
  rw [resolve_loop_eq_foldl]
  generalize (matching_lines file kernel_symbol).dropLast = pre at hsplit
  rw [hsplit, List.foldl_append]
  simp only [List.foldl_cons, List.foldl_nil]
  rw [foldl_parse_snd]
  unfold Parsed.value
  split <;> rfl

/-- Whatever the table and the name, the pointer `resolve_kernel_symbol`
returns cannot be read: it is NULL or designates a freed block. -/
theorem resolve_kernel_symbol_read (malloc_result : Option syscall_t)
    (fopen_result : Option (List CStr)) (kernel_symbol : CStr) :
    (resolve_kernel_symbol malloc_result fopen_result kernel_symbol).bind HeapPtr.read
      = none := by
  unfold resolve_kernel_symbol
  cases malloc_result with
  | none => rfl
  | some information =>
    cases fopen_result with
    | none => rfl
    | some file =>
      simp only
      split <;> rfl

/-- The loop of `fetch_module_data` prints the decoded records whose name is a
prefix of the filter, in file order. -/
theorem fetch_module_data_loop_eq (module_name : CStr) (file : List CStr)
    (information : kmodule_t) (out : Stdout) :
    fetch_module_data_loop module_name file information out
      = out ++ (decoded_modules information file).filter
          (fun m => decide (cstr m.kmodule <+: cstr module_name)) := by
  induction file generalizing information out with
  | nil => simp [fetch_module_data_loop, decoded_modules]
  | cons buffer file ih =>
    rw [fetch_module_data_loop]
    simp only [parse_loaded_module_data_ret, if_true, decoded_modules]
    by_cases h : cstr (parse_loaded_module_data information buffer).mem.kmodule <+: cstr module_name
    · rw [if_pos ((strncmp_strlen_eq_zero_iff _ _).mpr h), ih]
      simp [print_module_information, List.filter_cons, h]
    · have h0 : ¬ strncmp (parse_loaded_module_data information buffer).mem.kmodule module_name
          (strlen (parse_loaded_module_data information buffer).mem.kmodule) = 0 := fun h0 =>
        h ((strncmp_strlen_eq_zero_iff _ _).mp h0)
      rw [if_neg h0, ih]
      simp [List.filter_cons, h]

/-! ## Tokens -/

theorem strtok_r_token (d : Char) {tok : CStr} (rest : CStr) (hne : tok ≠ []) (hd : d ∉ tok)
    (str : Option CStr) (save_ptr : CStr)
    (hs : (match str with | some s => s | none => save_ptr) = tok ++ d :: rest) :
    strtok_r str [d] save_ptr = (some tok, rest) := by
  have hp : ∀ c ∈ tok, (fun x => !([d].contains x)) c = true := by
    intro c hc
    have : c ≠ d := fun h => hd (h ▸ hc)
    simp [this]
  have hr : ∀ c ∈ (d :: rest).head?, (fun x => !([d].contains x)) c = false := by
    intro c hc
    simp at hc
    subst hc
    simp
  unfold strtok_r
  simp only [hs]
  cases tok with
  | nil => exact absurd rfl hne
  | cons a t =>
    have had : a ≠ d := fun h => hd (h ▸ List.mem_cons_self _ _)
    rw [List.cons_append, List.dropWhile_cons_of_neg (by simp [had])]
    simp only
    rw [← List.cons_append, takeWhile_stop hp hr, dropWhile_stop hp hr]

theorem strtok_r_last (d : Char) {tok : CStr} (hne : tok ≠ []) (hd : d ∉ tok)
    (str : Option CStr) (save_ptr : CStr)
    (hs : (match str with | some s => s | none => save_ptr) = tok) :
    strtok_r str [d] save_ptr = (some tok, []) := by
  have hp : ∀ c ∈ tok, (fun x => !([d].contains x)) c = true := by
    intro c hc
    have : c ≠ d := fun h => hd (h ▸ hc)
    simp [this]
  have htake : tok.takeWhile (fun x => !([d].contains x)) = tok :=
    List.takeWhile_eq_self_iff.mpr hp
  have hdrop : tok.dropWhile (fun x => !([d].contains x)) = [] :=
    List.dropWhile_eq_nil_iff.mpr hp
  unfold strtok_r
  simp only [hs]
  cases tok with
  | nil => exact absurd rfl hne
  | cons a t =>
    have had : a ≠ d := fun h => hd (h ▸ List.mem_cons_self _ _)
    rw [List.dropWhile_cons_of_neg (by simp [had])]
    simp only
    rw [htake, hdrop]

theorem strtok_r_rest {body : CStr} (hne : body ≠ []) :
    strtok_r none [] body = (some body, []) := by
  have htake : ∀ l : CStr, l.takeWhile (fun x => !(([] : CStr).contains x)) = l := fun l =>
    List.takeWhile_eq_self_iff.mpr (by simp)
  have hdrop : ∀ l : CStr, l.dropWhile (fun x => !(([] : CStr).contains x)) = [] := fun l =>
    List.dropWhile_eq_nil_iff.mpr (by simp)
  cases body with
  | nil => exact absurd rfl hne
  | cons a t =>
    unfold strtok_r
    simp only
    rw [List.dropWhile_cons_of_neg (by simp)]
    simp only
    rw [htake, hdrop]

theorem strtok_r_end (delim : CStr) : strtok_r none delim [] = (none, []) := by
  simp [strtok_r]

/-- When the text after the first `;` holds no `:`, the second call of
`strtok_r` takes all of it and the third finds nothing: the second node has a
NULL token. -/
theorem return_parsed_messages_no_colon_tokens (front remainder : CStr)
    (hfront : front ≠ []) (hsemi : ';' ∉ front) (hrem : remainder ≠ [])
    (hcolon : ':' ∉ remainder) :
    return_parsed_messages (front ++ ';' :: remainder)
      = [⟨0, some remainder⟩, ⟨1, none⟩] := by
  unfold return_parsed_messages
  simp only
  rw [strtok_r_token ';' remainder hfront hsemi (some _) [] rfl]
  simp only
  rw [strtok_r_last ':' hrem hcolon none _ rfl]
  simp only
  rw [strtok_r_end]
  rfl

/-- A list whose second node has a NULL token cannot be printed. -/
theorem print_formatted_messages_null (key : Option CStr) (i j : Int) (rest : List token_t) :
    (print_formatted_messages (⟨i, key⟩ :: ⟨j, none⟩ :: rest)).1 = none := by
  cases key <;> rfl

/-- At the `free`, the buffer of `resolve_kernel_symbol` holds the owning module
of an earlier matching line when the last matching line has three fields. -/
theorem resolve_kernel_symbol_contents_stale :
    resolve_kernel_symbol (some ⟨0, [], [], []⟩)
        (some ["ffffffffc0000000 t foo [mod]\n".toList, "ffffffff81000000 T foo\n".toList])
        "foo".toList
      = some ⟨false, ⟨0xffffffff81000000, "foo".toList, "[mod]".toList, "T".toList⟩⟩ := by
  decide

theorem strlen_eq_length_cstr (s : CStr) : strlen s = (cstr s).length := by
  induction s with
  | nil => rfl
  | cons c cs ih =>
    by_cases h : c = NUL
    · subst h
      simp [strlen, cstr_cons_NUL]
    · simp [strlen, h, cstr_cons_of_ne h, ih]

/-! ## Module loading -/

theorem read_image_path {K : Kernel σ} {module_path : Option CStr} {w : World σ}
    {r : Int × Int × List Nat × World σ} (h : read_image K module_path w = some r) :
    module_path ≠ none := by
  rintro rfl
  have hnull : (do_open K none w).1 = -1 := K.open_null w.kernel
  simp [read_image, hnull] at h

theorem insert_of_read_image {K : Kernel σ} {params module_path : Option CStr} {w : World σ}
    {file size : Int} {image : List Nat} {w4 : World σ}
    (h : read_image K module_path w = some (file, size, image, w4)) :
    insert_kernel_module K params module_path w
      = insert_kernel_module_request K params module_path file image size w4 := by
  have hpath := read_image_path h
  unfold read_image at h
  unfold insert_kernel_module
  simp only at h ⊢
  split_ifs at h ⊢ with h1 h2 h3 h4
  simp only [Option.some.injEq, Prod.mk.injEq] at h
  obtain ⟨rfl, rfl, rfl, rfl⟩ := h
  rfl

theorem events_since_trans {w w1 w2 : World σ} (h1 : w.trace <+: w1.trace)
    (h2 : w1.trace <+: w2.trace) :
    w.trace <+: w2.trace ∧ events_since w w2 = events_since w w1 ++ events_since w1 w2 := by
  obtain ⟨e1, he1⟩ := h1
  obtain ⟨e2, he2⟩ := h2
  refine ⟨⟨e1 ++ e2, by rw [← he2, ← he1, List.append_assoc]⟩, ?_⟩
  simp [events_since, ← he2, ← he1, List.append_assoc]

theorem load_requests_append (a b : List Event) :
    load_requests (a ++ b) = load_requests a ++ load_requests b := by
  simp [load_requests]

theorem fallback_calls_append (a b : List Event) :
    fallback_calls (a ++ b) = fallback_calls a ++ fallback_calls b := by
  simp [fallback_calls]

theorem primary_requests_append (a b : List Event) :
    primary_requests (a ++ b) = primary_requests a ++ primary_requests b := by
  simp [primary_requests]

theorem read_image_trace {K : Kernel σ} {module_path : Option CStr} {w : World σ}
    {file size : Int} {image : List Nat} {w4 : World σ}
    (h : read_image K module_path w = some (file, size, image, w4)) :
    w.trace <+: w4.trace ∧ load_requests (events_since w w4) = []
      ∧ fallback_calls (events_since w w4) = []
      ∧ primary_requests (events_since w w4) = [] := by
  unfold read_image at h
  simp only at h
  split_ifs at h with h1 h2 h3 h4
  simp only [Option.some.injEq, Prod.mk.injEq] at h
  obtain ⟨_, _, _, h5⟩ := h
  subst h5
  simp [events_since, do_read, do_malloc, do_fstat, do_open, load_requests, fallback_calls,
    primary_requests]

theorem read_image_none {K : Kernel σ} {params module_path : Option CStr} {w : World σ}
    (h : read_image K module_path w = none) :
    (insert_kernel_module K params module_path w).1 = false
    ∧ load_requests (events_since w (insert_kernel_module K params module_path w).2) = []
    ∧ fallback_calls (events_since w (insert_kernel_module K params module_path w).2) = [] := by
  unfold read_image at h
  unfold insert_kernel_module
  simp only at h ⊢
  split_ifs at h ⊢ with h1 h2 h3 h4 <;>
    simp [events_since, do_read, do_malloc, do_fstat, do_open, load_requests, fallback_calls]

/-- A run of `invoke_finite_module` records its entry once, makes no
load-from-memory request, and succeeds exactly when a load request of its own
is accepted. -/
theorem invoke_finite_module_trace (K : Kernel σ) (params module_path : Option CStr)
    (w : World σ) :
    w.trace <+: (invoke_finite_module K params module_path w).2.trace
    ∧ fallback_calls (events_since w (invoke_finite_module K params module_path w).2)
        = [(params, module_path)]
    ∧ primary_requests (events_since w (invoke_finite_module K params module_path w).2) = []
    ∧ (invoke_finite_module K params module_path w).1
        = (load_requests (events_since w (invoke_finite_module K params module_path w).2)).any
            request_accepted := by
  cases module_path with
  | none =>
    have hnull : ∀ w1 : World σ, (do_open K none w1).1 = -1 := fun w1 => K.open_null w1.kernel
    unfold invoke_finite_module
    simp only [hnull, if_true]
    simp [events_since, do_open, load_requests, fallback_calls, primary_requests]
  | some path =>
    unfold invoke_finite_module invoke_finite_module_request
    simp only [reduceCtorEq, if_false]
    split_ifs with h1 h2
    · simp [events_since, do_open, load_requests, fallback_calls, primary_requests]
    · simp only [do_finit_module, do_open] at h2
      simp [events_since, do_finit_module, do_open, load_requests, fallback_calls,
        primary_requests, request_accepted]
      exact h2
    · simp only [do_finit_module, do_open, ne_eq, not_not] at h2
      simp [events_since, do_close, do_finit_module, do_open, load_requests, fallback_calls,
        primary_requests, request_accepted]
      exact h2

theorem insert_request_accepted {K : Kernel σ} {params module_path : Option CStr}
    {file size : Int} {image : List Nat} (w4 : World σ)
    (h : (do_init_module K image size params w4).1 = 0) :
    insert_kernel_module_request K params module_path file image size w4
      = (true, do_free (do_close K file (do_init_module K image size params w4).2)) := by
  unfold insert_kernel_module_request
  simp [h]

theorem insert_request_rejected {K : Kernel σ} {params module_path : Option CStr}
    {file size : Int} {image : List Nat} (w4 : World σ)
    (h : (do_init_module K image size params w4).1 ≠ 0) :
    insert_kernel_module_request K params module_path file image size w4
      = invoke_finite_module K params module_path
          (do_free (do_init_module K image size params w4).2) := by
  unfold insert_kernel_module_request
  simp [h]

/-- What `insert_kernel_module` does once the image is read: one
load-from-memory request carrying `params` as given, no fallback when it is
accepted, one fallback otherwise; the result says whether a request was
accepted. -/
theorem insert_request_trace (K : Kernel σ) (params module_path : Option CStr)
    (file size : Int) (image : List Nat) (w4 : World σ) :
    w4.trace <+: (insert_kernel_module_request K params module_path file image size w4).2.trace
    ∧ primary_requests
        (events_since w4 (insert_kernel_module_request K params module_path file image size w4).2)
      = [params]
    ∧ fallback_calls
        (events_since w4 (insert_kernel_module_request K params module_path file image size w4).2)
      = (if (do_init_module K image size params w4).1 = 0 then [] else [(params, module_path)])
    ∧ (insert_kernel_module_request K params module_path file image size w4).1
      = (load_requests
          (events_since w4
            (insert_kernel_module_request K params module_path file image size w4).2)).any
          request_accepted := by
  by_cases h : (do_init_module K image size params w4).1 = 0
  · rw [insert_request_accepted w4 h, if_pos h]
    simp only [do_init_module] at h
    simp [events_since, do_free, do_close, do_init_module, primary_requests, fallback_calls,
      load_requests, request_accepted, h]
  · rw [insert_request_rejected w4 h, if_neg h]
    obtain ⟨hp, hf, hq, hr⟩ := invoke_finite_module_trace K params module_path
      (do_free (do_init_module K image size params w4).2)
    have h0 : w4.trace <+: (do_free (do_init_module K image size params w4).2).trace := by
      simp [do_free, do_init_module]
    have hev : events_since w4 (do_free (do_init_module K image size params w4).2)
        = [Event.sys_init_module image size params (do_init_module K image size params w4).1,
           Event.free] := by
      simp [events_since, do_free, do_init_module]
    obtain ⟨hpre, hsplit⟩ := events_since_trans h0 hp
    refine ⟨hpre, ?_, ?_, ?_⟩
    · rw [hsplit, primary_requests_append, hq, hev]
      simp [primary_requests]
    · rw [hsplit, fallback_calls_append, hf, hev]
      simp [fallback_calls]
    · rw [hsplit, load_requests_append, hev, hr]
      simp [load_requests, request_accepted, h]

/-- With a readable image the one load-from-memory request carries `params` as
it was given, NULL included. -/
theorem insert_kernel_module_primary_params {K : Kernel σ} {params module_path : Option CStr}
    {w : World σ} {file size : Int} {image : List Nat} {w4 : World σ}
    (h : read_image K module_path w = some (file, size, image, w4)) :
    primary_requests (events_since w (insert_kernel_module K params module_path w).2)
      = [params] := by
  obtain ⟨hpre, _, _, hpr⟩ := read_image_trace h
  obtain ⟨hpre2, hpr2, _, _⟩ := insert_request_trace K params module_path file size image w4
  obtain ⟨_, hsplit⟩ := events_since_trans hpre hpre2
  rw [insert_of_read_image h, hsplit, primary_requests_append, hpr, hpr2]
  rfl

/-! ## Symbol resolution -/

/-- C1 (the code departs from the claim): `resolve_kernel_symbol` frees the
record buffer and then returns the pointer to it, so whatever the table and the
name, the pointer it returns is NULL or designates a freed block and no field
can be read through it.  With the two lines `ffffffff81000000 T foo` and
`ffffffffc0000000 t foo_init [mod]`, which both contain `foo`, the block held
the record of the last line when it was freed, and the pointer returned is not
NULL and designates that freed block. -/
theorem resolve_kernel_symbol_dangling :
    (∀ (malloc_result : Option syscall_t) (fopen_result : Option (List CStr))
        (kernel_symbol : CStr),
      (resolve_kernel_symbol malloc_result fopen_result kernel_symbol).bind HeapPtr.read
        = none)
    ∧ 1 < (matching_lines ["ffffffff81000000 T foo\n".toList,
          "ffffffffc0000000 t foo_init [mod]\n".toList] "foo".toList).length
    ∧ resolve_kernel_symbol (some ⟨0, [], [], []⟩)
        (some ["ffffffff81000000 T foo\n".toList,
               "ffffffffc0000000 t foo_init [mod]\n".toList])
        "foo".toList
      = some ⟨false, ⟨0xffffffffc0000000, "foo_init".toList, "[mod]".toList, "t".toList⟩⟩ := by
  refine ⟨resolve_kernel_symbol_read, by decide, by decide⟩

/-! ## Module listing -/

/-- C2: `fetch_module_data` succeeds and prints, in file order, exactly the
decoded records whose name and the filter agree on the first
`strlen(decoded name)` characters. -/
theorem fetch_module_data_prints (file : List CStr) (information : kmodule_t)
    (module_name : CStr) :
    fetch_module_data (some file) (some information) module_name
      = (true, (decoded_modules information file).filter (fun m =>
          decide ((cstr m.kmodule).take (strlen m.kmodule)
            = (cstr module_name).take (strlen m.kmodule)))) := by
  unfold fetch_module_data
  simp only [fetch_module_data_loop_eq, List.nil_append]
  congr 1
  apply List.filter_congr
  intro m _
  rw [decide_eq_decide, strlen_eq_length_cstr, List.take_length, List.prefix_iff_eq_take]

/-- C3, as stated, fails: in a table with the modules `abc` and `abcd`, the
filter `ab` prints nothing. -/
theorem fetch_module_data_short_filter :
    (decoded_modules ⟨0, 0, 0, [], [], []⟩
        ["abc 1000 1 - Live 0xffffffffc0000000\n".toList,
         "abcd 2000 2 abc, Live 0xffffffffc0100000\n".toList]).map (fun m => m.kmodule)
      = ["abc".toList, "abcd".toList]
    ∧ fetch_module_data
        (some ["abc 1000 1 - Live 0xffffffffc0000000\n".toList,
               "abcd 2000 2 abc, Live 0xffffffffc0100000\n".toList])
        (some ⟨0, 0, 0, [], [], []⟩) "ab".toList
      = (true, []) := by
  decide

/-- C3, amended: for a table whose lines decode to the names `abc` and `abcd`,
the filter `ab` prints neither record, and the filter `abcd` prints both, the
one named `abc` included: a decoded name matches when it is a prefix of the
filter. -/
theorem fetch_module_data_abc_abcd (file : List CStr) (information : kmodule_t)
    (h : (decoded_modules information file).map (fun m => m.kmodule)
      = ["abc".toList, "abcd".toList]) :
    (fetch_module_data (some file) (some information) "ab".toList).2 = []
    ∧ (fetch_module_data (some file) (some information) "abcd".toList).2
      = decoded_modules information file := by
  unfold fetch_module_data
  simp only [fetch_module_data_loop_eq, List.nil_append]
  generalize decoded_modules information file = ms at h
  rcases ms with _ | ⟨m1, _ | ⟨m2, _ | ⟨m3, t⟩⟩⟩
  · simp at h
  · simp at h
  · simp only [List.map_cons, List.map_nil, List.cons.injEq, and_true] at h
    obtain ⟨h1, h2⟩ := h
    have a1 : ¬ cstr m1.kmodule <+: cstr "ab".toList := by rw [h1]; decide
    have a2 : ¬ cstr m2.kmodule <+: cstr "ab".toList := by rw [h2]; decide
    have b1 : cstr m1.kmodule <+: cstr "abcd".toList := by rw [h1]; decide
    have b2 : cstr m2.kmodule <+: cstr "abcd".toList := by rw [h2]
    constructor
    · rw [List.filter_cons_of_neg (by simpa using a1),
        List.filter_cons_of_neg (by simpa using a2), List.filter_nil]
    · rw [List.filter_cons_of_pos (by simpa using b1),
        List.filter_cons_of_pos (by simpa using b2), List.filter_nil]
  · simp at h

/-- Witness of C3 amended. -/
theorem fetch_module_data_abc_abcd_witness :
    (fetch_module_data
        (some ["abc 1000 1 - Live 0xffffffffc0000000\n".toList,
               "abcd 2000 2 abc, Live 0xffffffffc0100000\n".toList])
        (some ⟨0, 0, 0, [], [], []⟩) "ab".toList).2 = []
    ∧ (fetch_module_data
        (some ["abc 1000 1 - Live 0xffffffffc0000000\n".toList,
               "abcd 2000 2 abc, Live 0xffffffffc0100000\n".toList])
        (some ⟨0, 0, 0, [], [], []⟩) "abcd".toList).2
      = decoded_modules ⟨0, 0, 0, [], [], []⟩
        ["abc 1000 1 - Live 0xffffffffc0000000\n".toList,
         "abcd 2000 2 abc, Live 0xffffffffc0100000\n".toList] :=
  fetch_module_data_abc_abcd
    ["abc 1000 1 - Live 0xffffffffc0000000\n".toList,
     "abcd 2000 2 abc, Live 0xffffffffc0100000\n".toList]
    ⟨0, 0, 0, [], [], []⟩ (by decide)

/-! ## Decoding of lines -/

/-- C4 (the code departs from the claim): `parse_loaded_module_data` never
returns NULL.  On the one-field line `abc` it returns the record with only the
name replaced, the other five fields being those the buffer held before; on
the empty line it returns the buffer unchanged. -/
theorem parse_loaded_module_data_never_null :
    (∀ (information : kmodule_t) (string : CStr),
      (parse_loaded_module_data information string).value
        = some (parse_loaded_module_data information string).mem)
    ∧ (parse_loaded_module_data ⟨1, 2, 3, "Live".toList, "old".toList, "-".toList⟩
        "abc\n".toList).value
      = some ⟨1, 2, 3, "Live".toList, "abc".toList, "-".toList⟩
    ∧ (parse_loaded_module_data ⟨1, 2, 3, "Live".toList, "old".toList, "-".toList⟩ []).value
      = some ⟨1, 2, 3, "Live".toList, "old".toList, "-".toList⟩ := by
  refine ⟨?_, by decide, by decide⟩
  intro information string
  simp [Parsed.value, parse_loaded_module_data_ret]

/-- C5: on a well-formed six-field module line, `parse_loaded_module_data`
returns a record whose name, dependencies and state are the source texts,
whose instances is the source integer, and whose size and offset are the
values of their hexadecimal texts. -/
theorem parse_loaded_module_data_well_formed (information : kmodule_t) (l : ModuleLine)
    (h : l.WellFormed) :
    (parse_loaded_module_data information l.text).value
      = some { size := text_value 16 l.size_digits
               offset := text_value 16 l.offset_digits
               instances := signed_value l.instances_sign l.instances_digits
               state := l.state
               kmodule := l.name
               dependencies := l.dependencies } := by
  rw [parse_loaded_module_data_line information l h]
  rfl

/-- Witness of C5: the line `nvidia 1a2b -3 drm,video Live 0xffffffffc0000000 (POE)`. -/
theorem parse_loaded_module_data_well_formed_witness :
    (parse_loaded_module_data ⟨0, 0, 0, [], [], []⟩
        "nvidia 1a2b -3 drm,video Live 0xffffffffc0000000 (POE)\n".toList).value
      = some { size := 0x1a2b
               offset := 0xffffffffc0000000
               instances := -3
               state := "Live".toList
               kmodule := "nvidia".toList
               dependencies := "drm,video".toList } :=
  parse_loaded_module_data_well_formed ⟨0, 0, 0, [], [], []⟩
    { ws0 := [], name := "nvidia".toList, ws1 := " ".toList,
      size_radix := [], size_digits := "1a2b".toList, ws2 := " ".toList,
      instances_sign := "-".toList, instances_digits := "3".toList, ws3 := " ".toList,
      dependencies := "drm,video".toList, ws4 := " ".toList, state := "Live".toList,
      ws5 := " ".toList, offset_radix := "0x".toList,
      offset_digits := "ffffffffc0000000".toList, tail := " (POE)\n".toList }
    (by decide)

/-- C7, as stated, fails: in `k;:a:b` the text between the first `;` and the
first `:` after it is empty and what follows that `:` is `a:b`, but the fields
are `a` and `b`. -/
theorem return_parsed_messages_leading_colon :
    ';' ∉ "k".toList
    ∧ "k;:a:b".toList = "k".toList ++ ';' :: ([] ++ ':' :: "a:b".toList)
    ∧ return_parsed_messages "k;:a:b".toList = [⟨0, some "a".toList⟩, ⟨1, some "b".toList⟩]
    ∧ return_parsed_messages "k;:a:b".toList ≠ [⟨0, some []⟩, ⟨1, some "a:b".toList⟩] := by
  decide

/-- C7, amended: for a line that does not begin with `;`, and whose text after
the first `;` has a first `:` that is neither the first character of that text
nor its last, the list has two nodes: field 0 is the text between that `;` and
that first `:`, field 1 everything after that `:`, unchanged. -/
theorem return_parsed_messages_key_body (front key body : CStr)
    (hfront : front ≠ []) (hsemi : ';' ∉ front) (hkey : key ≠ []) (hcolon : ':' ∉ key)
    (hbody : body ≠ []) :
    return_parsed_messages (front ++ ';' :: (key ++ ':' :: body))
      = [⟨0, some key⟩, ⟨1, some body⟩] := by
  unfold return_parsed_messages
  simp only
  rw [strtok_r_token ';' (key ++ ':' :: body) hfront hsemi (some _) [] rfl]
  simp only
  rw [strtok_r_token ':' body hkey hcolon none _ rfl]
  simp only
  rw [strtok_r_rest hbody]
  rfl

/-- Witness of C7 amended: a record of `/dev/kmsg`. -/
theorem return_parsed_messages_key_body_witness :
    return_parsed_messages "6,1234,5678,-;usb 1-1: new device; ok: yes\n".toList
      = [⟨0, some "usb 1-1".toList⟩, ⟨1, some " new device; ok: yes\n".toList⟩] :=
  return_parsed_messages_key_body "6,1234,5678,-".toList "usb 1-1".toList
    " new device; ok: yes\n".toList (by decide) (by decide) (by decide) (by decide) (by decide)

/-- C8 (the code departs from the claim): for `kern:1234;driver loaded ok`,
whose text after the `;` holds no `:`, the list has `driver loaded ok` as
field 0 and a NULL token as field 1, where the key should be empty and the body
`driver loaded ok`; `print_formatted_messages` hands that NULL token to a `%s`
conversion, which is undefined, where the tokens of the claim would print
`[kutil]: : driver loaded ok`. -/
theorem return_parsed_messages_null_body :
    ':' ∉ "driver loaded ok".toList
    ∧ return_parsed_messages "kern:1234;driver loaded ok".toList
      = [⟨0, some "driver loaded ok".toList⟩, ⟨1, none⟩]
    ∧ return_parsed_messages "kern:1234;driver loaded ok".toList
      ≠ [⟨0, some []⟩, ⟨1, some "driver loaded ok".toList⟩]
    ∧ (print_formatted_messages
        (return_parsed_messages "kern:1234;driver loaded ok".toList)).1 = none
    ∧ (print_formatted_messages [⟨0, some []⟩, ⟨1, some "driver loaded ok".toList⟩]).1
      = some "[kutil]: : driver loaded ok\n".toList := by
  decide

/-! ## Module loading -/

/-- C9: when the image is read, an accepted load-from-memory request makes
`insert_kernel_module` succeed with no fallback; a rejected one makes it call
`invoke_finite_module` once, with the `params` and `module_path` it was given,
and return that call's result.  When the image cannot be read it fails and
issues no load request.  In every case it succeeds exactly when a load request,
the primary one or the fallback's, was accepted. -/
theorem insert_kernel_module_fallback (K : Kernel σ) (params module_path : Option CStr)
    (w : World σ) (file size : Int) (image : List Nat) (w4 : World σ) :
    (read_image K module_path w = some (file, size, image, w4) →
      ((do_init_module K image size params w4).1 = 0 →
        insert_kernel_module K params module_path w
          = (true, do_free (do_close K file (do_init_module K image size params w4).2))
        ∧ fallback_calls (events_since w (insert_kernel_module K params module_path w).2) = [])
      ∧ ((do_init_module K image size params w4).1 ≠ 0 →
        insert_kernel_module K params module_path w
          = invoke_finite_module K params module_path
              (do_free (do_init_module K image size params w4).2)
        ∧ fallback_calls (events_since w (insert_kernel_module K params module_path w).2)
          = [(params, module_path)]))
    ∧ (read_image K module_path w = none →
        (insert_kernel_module K params module_path w).1 = false
        ∧ load_requests (events_since w (insert_kernel_module K params module_path w).2) = [])
    ∧ (insert_kernel_module K params module_path w).1
      = (load_requests (events_since w (insert_kernel_module K params module_path w).2)).any
          request_accepted := by
  refine ⟨?_, ?_, ?_⟩
  · intro hread
    obtain ⟨hpre, _, hfb, _⟩ := read_image_trace hread
    obtain ⟨hpre2, _, hfb2, _⟩ :=
      insert_request_trace K params module_path file size image w4
    obtain ⟨_, hsplit⟩ := events_since_trans hpre hpre2
    rw [insert_of_read_image hread]
    constructor
    · intro hok
      refine ⟨insert_request_accepted w4 hok, ?_⟩
      rw [hsplit, fallback_calls_append, hfb, hfb2, if_pos hok]
      rfl
    · intro hrej
      refine ⟨insert_request_rejected w4 hrej, ?_⟩
      rw [hsplit, fallback_calls_append, hfb, hfb2, if_neg hrej]
      rfl
  · intro hnone
    exact ⟨(read_image_none hnone).1, (read_image_none hnone).2.1⟩
  · cases hread : read_image K module_path w with
    | none =>
      rw [(read_image_none hread).1, (read_image_none hread).2.1]
      rfl
    | some r =>
      obtain ⟨file1, size1, image1, w41⟩ := r
      obtain ⟨hpre, hlr, _, _⟩ := read_image_trace hread
      obtain ⟨hpre2, _, _, hres⟩ :=
        insert_request_trace K params module_path file1 size1 image1 w41
      obtain ⟨_, hsplit⟩ := events_since_trans hpre hpre2
      rw [insert_of_read_image hread, hsplit, load_requests_append, hlr, List.nil_append]
      exact hres

/-- Witness of C9: a kernel that rejects the load from memory and accepts the
fallback, one that accepts the load from memory, and one whose `read` fails. -/
theorem insert_kernel_module_fallback_witness :
    (insert_kernel_module (scripted_kernel true (-1) 0) (some "debug=1".toList)
        (some "m.ko".toList) ⟨(), []⟩
      = invoke_finite_module (scripted_kernel true (-1) 0) (some "debug=1".toList)
          (some "m.ko".toList)
          (do_free (do_init_module (scripted_kernel true (-1) 0) [127, 69, 76, 70] 4
            (some "debug=1".toList)
            ⟨(), [Event.sys_open (some "m.ko".toList) 3, Event.sys_fstat 3 0,
                  Event.malloc 4 true, Event.sys_read 3 4 4]⟩).2)
      ∧ fallback_calls (events_since ⟨(), []⟩
          (insert_kernel_module (scripted_kernel true (-1) 0) (some "debug=1".toList)
            (some "m.ko".toList) ⟨(), []⟩).2)
        = [(some "debug=1".toList, some "m.ko".toList)])
    ∧ (insert_kernel_module (scripted_kernel true 0 0) (some "debug=1".toList)
        (some "m.ko".toList) ⟨(), []⟩
      = (true, do_free (do_close (scripted_kernel true 0 0) 3
          (do_init_module (scripted_kernel true 0 0) [127, 69, 76, 70] 4
            (some "debug=1".toList)
            ⟨(), [Event.sys_open (some "m.ko".toList) 3, Event.sys_fstat 3 0,
                  Event.malloc 4 true, Event.sys_read 3 4 4]⟩).2))
      ∧ fallback_calls (events_since ⟨(), []⟩
          (insert_kernel_module (scripted_kernel true 0 0) (some "debug=1".toList)
            (some "m.ko".toList) ⟨(), []⟩).2)
        = [])
    ∧ ((insert_kernel_module (scripted_kernel false 0 0) (some "debug=1".toList)
        (some "m.ko".toList) ⟨(), []⟩).1 = false
      ∧ load_requests (events_since ⟨(), []⟩
          (insert_kernel_module (scripted_kernel false 0 0) (some "debug=1".toList)
            (some "m.ko".toList) ⟨(), []⟩).2)
        = []) :=
  ⟨((insert_kernel_module_fallback (scripted_kernel true (-1) 0) (some "debug=1".toList)
      (some "m.ko".toList) ⟨(), []⟩ 3 4 [127, 69, 76, 70]
      ⟨(), [Event.sys_open (some "m.ko".toList) 3, Event.sys_fstat 3 0,
            Event.malloc 4 true, Event.sys_read 3 4 4]⟩).1 rfl).2 (by decide),
   ((insert_kernel_module_fallback (scripted_kernel true 0 0) (some "debug=1".toList)
      (some "m.ko".toList) ⟨(), []⟩ 3 4 [127, 69, 76, 70]
      ⟨(), [Event.sys_open (some "m.ko".toList) 3, Event.sys_fstat 3 0,
            Event.malloc 4 true, Event.sys_read 3 4 4]⟩).1 rfl).1 (by decide),
   (insert_kernel_module_fallback (scripted_kernel false 0 0) (some "debug=1".toList)
      (some "m.ko".toList) ⟨(), []⟩ 0 0 [] ⟨(), []⟩).2.1 rfl⟩

/-- C10 (the code departs from the claim): with no parameter string (`params`
NULL) and a readable image, the load-from-memory request carries NULL, not the
empty string. -/
theorem insert_kernel_module_null_params :
    (read_image (scripted_kernel true 0 0) (some "m.ko".toList) ⟨(), []⟩).isSome = true
    ∧ primary_requests
        (insert_kernel_module (scripted_kernel true 0 0) none (some "m.ko".toList)
          ⟨(), []⟩).2.trace
      = [none]
    ∧ primary_requests
        (insert_kernel_module (scripted_kernel true 0 0) none (some "m.ko".toList)
          ⟨(), []⟩).2.trace
      ≠ [some []] := by
  decide

end Kutil
